import Mathlib

/-!
Verification of the PEP 517 build-system plugin
(src/python-517-build/python_517_build_plugin.py) against its
natural-language specification.

The development shallowly embeds the plugin's build-orchestration core:

* manifest resolution (`do_init_async` / `_on_load_pyproject_toml`),
* artifact registration (`Python517BuildSystem.add_build`),
* installable derivation (`Python517BuildSystem.get_builds_installable`).

Machinery the plugin merely calls is modelled at its interface:

* `BuildType` is the artifact-kind enumeration imported from the
  repository's backends module (absent from the sources) — modelled from
  the spec's closed ArtifactKind enumeration;
* `parse_wheel_filename` / `parse_sdist_filename` model the external
  packaging library (packaging.utils, 2022-era), returning `none` where
  the library raises;
* asynchronous file loading and TOML decoding are modelled by their
  outcome (`LoadOutcome`), which is what the `_on_load_pyproject_toml`
  callback dispatches on.
-/

namespace Pep517

/-- Modelled from the spec: the closed ArtifactKind enumeration
(`BuildType` in the repository's backends module, which is not among the
sources): TREE, EGG, WHEEL, SDIST, FILE. -/
inductive BuildType
  | TREE
  | EGG
  | WHEEL
  | SDIST
  | FILE
deriving DecidableEq, Repr

/-- Modelled from the spec: a resolved backend object.  Only one backend
is registered (`PypaBuildBackend`, for key "setuptools.build_meta"); its
behaviour is irrelevant to the claims below, so it is a bare tag. -/
inductive Backend
  | pypaBuildBackend
deriving DecidableEq, Repr

/-- The registry of build backends of `Python517BuildSystem`:
`backends = {"setuptools.build_meta": PypaBuildBackend}`. -/
def backends : List (String × Backend) :=
  [("setuptools.build_meta", Backend.pypaBuildBackend)]

/-- A TOML value as far as `_on_load_pyproject_toml` inspects it:
`tomli.loads` yields nested dicts whose leaves the code tests with
`isinstance(_, dict)` and `isinstance(_, str)`.  Anything else is
`vOther`. -/
inductive TomlVal
  | vStr : String → TomlVal
  | vTable : List (String × TomlVal) → TomlVal
  | vOther : TomlVal

/-- The outcome of the asynchronous manifest load feeding
`_on_load_pyproject_toml`: the `load_contents_finish` call raised a
`GLib.Error` (e.g. the file is absent), `tomli.loads` raised a
`TOMLDecodeError`, or a parsed top-level TOML table was obtained. -/
inductive LoadOutcome
  | ioError
  | decodeError
  | parsed : List (String × TomlVal) → LoadOutcome

/-- How `_on_load_pyproject_toml` completes its `Gio.Task`:
the propagated I/O error, the propagated TOML decode error, the
"Not a valid python PEP-517 build system" error (domain
`Gio.io_error_quark()`, code `Gio.IOErrorEnum.NOT_SUPPORTED`), or
`task.return_boolean(True)`. -/
inductive InitOutcome
  | errIo
  | errTomlDecode
  | errNotPep517
  | ok
deriving DecidableEq, Repr

/-- The manifest-validity test of `_on_load_pyproject_toml`: the parsed
document has a "build-system" key, its value is a dict, that dict has a
"build-backend" key, and its value is a string. -/
def isPep517 (doc : List (String × TomlVal)) : Bool :=
  match doc.lookup "build-system" with
  | some (TomlVal.vTable bs) =>
    match bs.lookup "build-backend" with
    | some (TomlVal.vStr _) => true
    | _ => false
  | _ => false

/-- The `py_project["build-system"]["build-backend"]` string, when the
document passes `isPep517`. -/
def buildBackendKey (doc : List (String × TomlVal)) : Option String :=
  match doc.lookup "build-system" with
  | some (TomlVal.vTable bs) =>
    match bs.lookup "build-backend" with
    | some (TomlVal.vStr s) => some s
    | _ => none
  | _ => none

/-- `Python517BuildSystem._on_load_pyproject_toml`: dispatch on the load
outcome; on each failure the corresponding error is returned to the task;
on a valid PEP 517 document the backend key is looked up in `backends`
(`self.props.backends.get(...)`) and `build_backend` is set only when the
lookup succeeds.  The result pairs the task completion with the value of
the `build_backend` property afterwards (its default is `None`). -/
def on_load_pyproject_toml (outcome : LoadOutcome) : InitOutcome × Option Backend :=
  match outcome with
  | LoadOutcome.ioError => (InitOutcome.errIo, none)
  | LoadOutcome.decodeError => (InitOutcome.errTomlDecode, none)
  | LoadOutcome.parsed doc =>
    if isPep517 doc then
      ( InitOutcome.ok
      , match buildBackendKey doc with
        | some key => backends.lookup key
        | none => none )
    else (InitOutcome.errNotPep517, none)

/-! ## Artifact registration (`add_build`)

Python string primitives used by the plugin are modelled over character
lists (Python strings are sequences of code points), keeping every
definition kernel-reducible. -/

/-- Python `s.endswith(pat)`. -/
def strEndsWith (s pat : String) : Bool :=
  let cs := s.toList
  let ps := pat.toList
  decide (ps.length ≤ cs.length) && decide (cs.drop (cs.length - ps.length) = ps)

/-- Python slicing `s[:-n]` (for `0 < n ≤ len(s)`): drop the last `n`
characters. -/
def strDropRight (s : String) (n : Nat) : String :=
  (s.toList.take (s.toList.length - n)).asString

/-- Python `s.split(sep)` for a one-character separator, written over
character lists. -/
def splitOnCharGo (sep : Char) (acc : List Char) : List Char → List (List Char)
  | [] => [acc.reverse]
  | c :: rest =>
    if c = sep then acc.reverse :: splitOnCharGo sep [] rest
    else splitOnCharGo sep (c :: acc) rest

/-- Python `s.split(sep)` for a one-character separator. -/
def splitOnChar (sep : Char) (s : String) : List (List Char) :=
  splitOnCharGo sep [] s.toList

/-- A filesystem path as `add_build` sees it: its base name
(`pathlib.Path.name`) and whether `is_dir()` holds. -/
structure PyFile where
  name : String
  isDir : Bool
deriving DecidableEq, Repr

/-- `pathlib.PurePath.suffix` of a base name: the substring from the last
dot, provided that dot is neither the first nor the last character;
otherwise the empty string.  So "foo.tar.gz" has the single suffix ".gz",
"foo." and ".bashrc" have none. -/
def pathSuffix (name : String) : String :=
  let cs := name.toList
  match cs.reverse.findIdx? (· = '.') with
  | some j =>
    let i := cs.length - 1 - j
    if 0 < i ∧ i < cs.length - 1 then (cs.drop i).asString else ""
  | none => ""

/-- The build registry `self.props.builds`: a Python dict from artifact
base name to kind, modelled as an insertion-ordered association list. -/
abbrev Registry := List (String × BuildType)

/-- Python dict assignment `d[k] = v`: an existing key keeps its position
and gets the new value; a fresh key is appended. -/
def dictSet (reg : Registry) (k : String) (v : BuildType) : Registry :=
  if reg.any (fun p => p.1 == k) then
    reg.map (fun p => if p.1 == k then (k, v) else p)
  else reg ++ [(k, v)]

/-- `Python517BuildSystem.add_build`, parametrised by the resolved
backend's `get_build_types()` result: the if/elif cascade classifying the
file and registering it under `file.name` when the branch's kind is
supported. -/
def add_build (supported : List BuildType) (builds : Registry) (f : PyFile) : Registry :=
  if f.isDir && supported.contains BuildType.TREE then
    dictSet builds f.name BuildType.TREE
  else if pathSuffix f.name == ".egg" && supported.contains BuildType.EGG then
    dictSet builds f.name BuildType.EGG
  else if pathSuffix f.name == ".whl" && supported.contains BuildType.WHEEL then
    dictSet builds f.name BuildType.WHEEL
  else if (pathSuffix f.name == ".gz" || pathSuffix f.name == ".tar" ||
           pathSuffix f.name == ".zip") && supported.contains BuildType.SDIST then
    dictSet builds f.name BuildType.SDIST
  else if supported.contains BuildType.FILE then
    dictSet builds f.name BuildType.FILE
  else builds

/-- Classification exactly as claim C2 states it: directory → TREE,
suffix ".egg" → EGG, ".whl" → WHEEL, ".tar"/".tar.gz"/".zip" → SDIST,
otherwise FILE — with the support check applied only afterwards. -/
def classifyClaimC2 (f : PyFile) : BuildType :=
  if f.isDir then BuildType.TREE
  else if pathSuffix f.name == ".egg" then BuildType.EGG
  else if pathSuffix f.name == ".whl" then BuildType.WHEEL
  else if strEndsWith f.name ".tar" || strEndsWith f.name ".tar.gz" ||
          strEndsWith f.name ".zip" then BuildType.SDIST
  else BuildType.FILE

/-- The amended classification rule actually implemented by `add_build`:
the first branch whose file test and support test both hold, `none` when
every branch fails (the artifact is silently dropped). -/
def classifyFirstMatch (supported : List BuildType) (f : PyFile) : Option BuildType :=
  if f.isDir && supported.contains BuildType.TREE then
    some BuildType.TREE
  else if pathSuffix f.name == ".egg" && supported.contains BuildType.EGG then
    some BuildType.EGG
  else if pathSuffix f.name == ".whl" && supported.contains BuildType.WHEEL then
    some BuildType.WHEEL
  else if (pathSuffix f.name == ".gz" || pathSuffix f.name == ".tar" ||
           pathSuffix f.name == ".zip") && supported.contains BuildType.SDIST then
    some BuildType.SDIST
  else if supported.contains BuildType.FILE then
    some BuildType.FILE
  else none

/-- Every build type; used for concrete instances. -/
def allBuildTypes : List BuildType :=
  [BuildType.TREE, BuildType.EGG, BuildType.WHEEL, BuildType.SDIST, BuildType.FILE]

/-! ## Installable derivation (`get_builds_installable`)

`get_builds_installable` calls `packaging.utils.parse_wheel_filename` and
`packaging.utils.parse_sdist_filename`.  These belong to the external
packaging library; they are modelled below following that library
(2022-era, v21.3), with `none` standing for a raised
`InvalidWheelFilename` / `InvalidSdistFilename` / `InvalidVersion`. -/

/-- Modelled from the external packaging library:
`canonicalize_name` lowercases and collapses every run of dashes,
underscores and dots into a single dash. -/
def canonicalizeGo (prevSep : Bool) : List Char → List Char
  | [] => []
  | c :: rest =>
    if c = '-' ∨ c = '_' ∨ c = '.' then
      if prevSep then canonicalizeGo true rest
      else '-' :: canonicalizeGo true rest
    else c.toLower :: canonicalizeGo false rest

/-- Modelled from the external packaging library:
`packaging.utils.canonicalize_name`. -/
def canonicalize_name (s : String) : String :=
  (canonicalizeGo false s.toList).asString

/-- Modelled from the external packaging library: acceptance of a version
string by `packaging.version.Version`, restricted to the plain
release segment of PEP 440 (non-empty dot-separated runs of digits);
`false` stands for a raised `InvalidVersion`. -/
def isReleaseVersion (s : String) : Bool :=
  (splitOnChar '.' s).all (fun c => !c.isEmpty && c.all Char.isDigit)

/-- Python `s.split("-", n)`: split on dashes, at most `n` splits. -/
def splitDashLimitGo : Nat → List Char → List Char → List String
  | _, acc, [] => [acc.reverse.asString]
  | 0, acc, rest => [(acc.reverse ++ rest).asString]
  | n + 1, acc, c :: rest =>
    if c = '-' then acc.reverse.asString :: splitDashLimitGo n [] rest
    else splitDashLimitGo (n + 1) (c :: acc) rest

/-- Python `s.split("-", n)` on a string. -/
def splitDashLimit (n : Nat) (s : String) : List String :=
  splitDashLimitGo n [] s.toList

/-- Does the name part contain "__" (forbidden by PEP 427 escaping)? -/
def hasDoubleUnderscore : List Char → Bool
  | '_' :: '_' :: _ => true
  | _ :: rest => hasDoubleUnderscore rest
  | [] => false

/-- A character allowed in the name part of a wheel filename by the
library's check of the class [\w\d._] (ASCII reading of \w). -/
def wheelNameChar (c : Char) : Bool :=
  c.isAlphanum || c = '_' || c = '.'

/-- The build-tag check of the library: the regex (\d+)(.*) must match
from the start, i.e. the part begins with a digit. -/
def isBuildTag (s : String) : Bool :=
  match s.toList with
  | c :: _ => c.isDigit
  | [] => false

/-- Modelled from the external packaging library:
`packaging.utils.parse_wheel_filename`, reduced to the project name it
returns; `none` wherever the library raises.  The filename must end in
".whl", the stem must contain 4 or 5 dashes, the name part must be free
of "__" and consist of word characters, the version must parse, and a
5-dash stem must carry a valid build tag. -/
def parse_wheel_filename (filename : String) : Option String :=
  if !strEndsWith filename ".whl" then none
  else
    let stem := strDropRight filename 4
    let dashes := stem.toList.count '-'
    if dashes ≠ 4 ∧ dashes ≠ 5 then none
    else
      let parts := splitDashLimit (dashes - 2) stem
      let namePart := parts.headD ""
      if hasDoubleUnderscore namePart.toList || !namePart.toList.all wheelNameChar then
        none
      else if !isReleaseVersion (parts.getD 1 "") then none
      else if dashes = 5 ∧ !isBuildTag (parts.getD 2 "") then none
      else some (canonicalize_name namePart)

/-- Modelled from the external packaging library:
`packaging.utils.parse_sdist_filename`, reduced to the project name;
`none` wherever the library raises.  The filename must end in ".tar.gz"
or ".zip", the stem must contain a dash (it is rpartitioned on the last
one), and the trailing part must be a valid version. -/
def parse_sdist_filename (filename : String) : Option String :=
  let stem :=
    if strEndsWith filename ".tar.gz" then some (strDropRight filename 7)
    else if strEndsWith filename ".zip" then some (strDropRight filename 4)
    else none
  match stem with
  | none => none
  | some st =>
    let comps := splitOnChar '-' st
    match comps with
    | [] => none
    | [_] => none
    | _ =>
      let versionPart := (comps.getLastD []).asString
      let namePart := ((comps.dropLast.intersperse ['-']).flatten).asString
      if !isReleaseVersion versionPart then none
      else some (canonicalize_name namePart)

/-- The member of `PkgError` a parse function raises. -/
inductive PkgError
  | invalidWheelFilename
  | invalidSdistFilename
deriving DecidableEq, Repr

/-- The preferred installable kind of `get_builds_installable`:
WHEEL if any registered artifact is a wheel, else SDIST, else TREE, else
`None` (the Python variable `installable`). -/
def installableOf (builds : Registry) : Option BuildType :=
  if builds.any (fun p => p.2 == BuildType.WHEEL) then some BuildType.WHEEL
  else if builds.any (fun p => p.2 == BuildType.SDIST) then some BuildType.SDIST
  else if builds.any (fun p => p.2 == BuildType.TREE) then some BuildType.TREE
  else none

/-- The `for file, kind in self.props.builds.items()` loop of
`get_builds_installable`: entries of the preferred kind are appended as
(file, kind, name); for WHEEL and SDIST entries `name` is reassigned from
the parse of the filename — an invalid filename raises out of the whole
loop; for other kinds the current `name` (initially "Unknown") is used. -/
def buildsLoop (installable : Option BuildType) (name : String) :
    List (String × BuildType) → Except PkgError (List (String × BuildType × String))
  | [] => Except.ok []
  | (file, kind) :: rest =>
    if some kind = installable then
      match kind with
      | BuildType.WHEEL =>
        match parse_wheel_filename file with
        | none => Except.error PkgError.invalidWheelFilename
        | some n =>
          match buildsLoop installable n rest with
          | Except.error e => Except.error e
          | Except.ok tl => Except.ok ((file, kind, n) :: tl)
      | BuildType.SDIST =>
        match parse_sdist_filename file with
        | none => Except.error PkgError.invalidSdistFilename
        | some n =>
          match buildsLoop installable n rest with
          | Except.error e => Except.error e
          | Except.ok tl => Except.ok ((file, kind, n) :: tl)
      | _ =>
        match buildsLoop installable name rest with
        | Except.error e => Except.error e
        | Except.ok tl => Except.ok ((file, kind, name) :: tl)
    else buildsLoop installable name rest

/-- `Python517BuildSystem.get_builds_installable`, parametrised by the
project workdir path: the synthetic ("sources", TREE) entry for the
workdir comes first, followed by the registry entries of the preferred
kind in registry order.  A filename-parse failure propagates out as the
raised exception. -/
def get_builds_installable (workdir : String) (builds : Registry) :
    Except PkgError (List (String × BuildType × String)) :=
  match buildsLoop (installableOf builds) "Unknown" builds with
  | Except.error e => Except.error e
  | Except.ok tl => Except.ok ((workdir, BuildType.TREE, "sources") :: tl)

/-! ## Helper lemmas -/

theorem lookup_map_overwrite (l : List (String × BuildType)) (k : String) (v : BuildType)
    (h : l.any (fun p => p.1 == k) = true) :
    (l.map (fun p => if p.1 == k then (k, v) else p)).lookup k = some v := by
  induction l with
  | nil => simp at h
  | cons p rest ih =>
    simp only [List.map_cons]
    by_cases hk : p.1 = k
    · rw [if_pos (by simp [hk])]
      simp [List.lookup]
    · rw [if_neg (by simp [hk])]
      have hne : (k == p.1) = false := beq_eq_false_iff_ne.mpr (fun e => hk e.symm)
      simp only [List.lookup, hne]
      apply ih
      have hpk : (p.1 == k) = false := beq_eq_false_iff_ne.mpr hk
      simp only [List.any_cons, hpk, Bool.false_or] at h
      exact h

theorem lookup_append_fresh (l : List (String × BuildType)) (k : String) (v : BuildType)
    (h : l.any (fun p => p.1 == k) = false) :
    (l ++ [(k, v)]).lookup k = some v := by
  induction l with
  | nil => simp [List.lookup]
  | cons p rest ih =>
    simp only [List.any_cons, Bool.or_eq_false_iff] at h
    have h1 : p.1 ≠ k := beq_eq_false_iff_ne.mp h.1
    have hne : (k == p.1) = false := beq_eq_false_iff_ne.mpr (fun e => h1 e.symm)
    simp only [List.cons_append, List.lookup, hne]
    exact ih h.2

theorem dictSet_lookup (reg : Registry) (k : String) (v : BuildType) :
    (dictSet reg k v).lookup k = some v := by
  unfold dictSet
  split
  next h => exact lookup_map_overwrite reg k v h
  next h => exact lookup_append_fresh reg k v (Bool.of_not_eq_true h)

theorem installableOf_wheel (builds : Registry) (file : String)
    (h : (file, BuildType.WHEEL) ∈ builds) :
    installableOf builds = some BuildType.WHEEL := by
  have ha : builds.any (fun p => p.2 == BuildType.WHEEL) = true :=
    List.any_eq_true.mpr ⟨(file, BuildType.WHEEL), h, by simp⟩
  simp [installableOf, ha]

theorem installableOf_sdist (builds : Registry) (file : String)
    (hnw : ∀ p ∈ builds, p.2 ≠ BuildType.WHEEL)
    (h : (file, BuildType.SDIST) ∈ builds) :
    installableOf builds = some BuildType.SDIST := by
  have hno : builds.any (fun p => p.2 == BuildType.WHEEL) = false := by
    rw [Bool.eq_false_iff]
    intro habs
    obtain ⟨x, hx, hpx⟩ := List.any_eq_true.mp habs
    exact hnw x hx (by simpa using hpx)
  have ha : builds.any (fun p => p.2 == BuildType.SDIST) = true :=
    List.any_eq_true.mpr ⟨(file, BuildType.SDIST), h, by simp⟩
  simp [installableOf, hno, ha]

theorem buildsLoop_wheel_error (l : List (String × BuildType)) (file : String)
    (hmem : (file, BuildType.WHEEL) ∈ l) (hbad : parse_wheel_filename file = none) :
    ∀ name, ∃ e, buildsLoop (some BuildType.WHEEL) name l = Except.error e := by
  induction l with
  | nil => cases hmem
  | cons p rest ih =>
    intro name
    rcases List.mem_cons.mp hmem with heq | hrest
    · rw [← heq]
      exact ⟨PkgError.invalidWheelFilename, by simp [buildsLoop, hbad]⟩
    · obtain ⟨f2, k2⟩ := p
      by_cases hk : k2 = BuildType.WHEEL
      · subst hk
        cases hp : parse_wheel_filename f2 with
        | none => exact ⟨PkgError.invalidWheelFilename, by simp [buildsLoop, hp]⟩
        | some n =>
          obtain ⟨e, he⟩ := ih hrest n
          exact ⟨e, by simp [buildsLoop, hp, he]⟩
      · obtain ⟨e, he⟩ := ih hrest name
        exact ⟨e, by simp [buildsLoop, hk, he]⟩

theorem buildsLoop_sdist_error (l : List (String × BuildType)) (file : String)
    (hmem : (file, BuildType.SDIST) ∈ l) (hbad : parse_sdist_filename file = none) :
    ∀ name, ∃ e, buildsLoop (some BuildType.SDIST) name l = Except.error e := by
  induction l with
  | nil => cases hmem
  | cons p rest ih =>
    intro name
    rcases List.mem_cons.mp hmem with heq | hrest
    · rw [← heq]
      exact ⟨PkgError.invalidSdistFilename, by simp [buildsLoop, hbad]⟩
    · obtain ⟨f2, k2⟩ := p
      by_cases hk : k2 = BuildType.SDIST
      · subst hk
        cases hp : parse_sdist_filename f2 with
        | none => exact ⟨PkgError.invalidSdistFilename, by simp [buildsLoop, hp]⟩
        | some n =>
          obtain ⟨e, he⟩ := ih hrest n
          exact ⟨e, by simp [buildsLoop, hp, he]⟩
      · obtain ⟨e, he⟩ := ih hrest name
        exact ⟨e, by simp [buildsLoop, hk, he]⟩

theorem toLower_ne_U (d : Char) : d.toLower ≠ 'U' := by
  intro h
  simp only [Char.toLower] at h
  split at h
  next hc =>
    obtain ⟨h1, h2⟩ := hc
    have h85 := congrArg Char.toNat h
    have hU : Char.toNat 'U' = 85 := by decide
    rw [hU] at h85
    generalize hg : d.toNat = n at h1 h2 h85
    have hv : (Char.ofNat (n + 32)).toNat = n + 32 := by
      interval_cases n <;> decide
    rw [hv] at h85
    omega
  next hc =>
    subst h
    exact hc (by decide)

theorem canonicalizeGo_shape (prevSep : Bool) (cs : List Char) (c : Char) (l : List Char)
    (h : canonicalizeGo prevSep cs = c :: l) : c = '-' ∨ ∃ d : Char, c = d.toLower := by
  induction cs generalizing prevSep with
  | nil => simp [canonicalizeGo] at h
  | cons a rest ih =>
    simp only [canonicalizeGo] at h
    by_cases ha : a = '-' ∨ a = '_' ∨ a = '.'
    · rw [if_pos ha] at h
      by_cases hp : prevSep = true
      · rw [if_pos hp] at h
        exact ih true h
      · rw [if_neg hp] at h
        injection h with h1 _
        exact Or.inl h1.symm
    · rw [if_neg ha] at h
      injection h with h1 _
      exact Or.inr ⟨a, h1.symm⟩

theorem canonicalize_ne_unknown (t : String) : canonicalize_name t ≠ "Unknown" := by
  intro h
  have h2 : canonicalizeGo false t.toList = ['U', 'n', 'k', 'n', 'o', 'w', 'n'] :=
    congrArg String.toList h
  rcases canonicalizeGo_shape false t.toList 'U' _ h2 with hdash | ⟨d, hd⟩
  · exact absurd hdash (by decide)
  · exact toLower_ne_U d hd.symm

theorem parse_wheel_filename_canonical (s n : String)
    (h : parse_wheel_filename s = some n) : ∃ t, n = canonicalize_name t := by
  simp only [parse_wheel_filename] at h
  split_ifs at h
  simp only [Option.some.injEq] at h
  exact ⟨_, h.symm⟩

theorem parse_sdist_filename_canonical (s n : String)
    (h : parse_sdist_filename s = some n) : ∃ t, n = canonicalize_name t := by
  simp only [parse_sdist_filename] at h
  repeat' split at h
  all_goals
    first
      | (simp only [Option.some.injEq] at h; exact ⟨_, h.symm⟩)
      | simp at h

theorem installableOf_cases (builds : Registry) :
    installableOf builds = none ∨ installableOf builds = some BuildType.WHEEL ∨
    installableOf builds = some BuildType.SDIST ∨
    installableOf builds = some BuildType.TREE := by
  unfold installableOf
  split_ifs <;> simp

theorem buildsLoop_none_ok (l : List (String × BuildType)) :
    ∀ (name : String) (res : List (String × BuildType × String)),
      buildsLoop none name l = Except.ok res → res = [] := by
  induction l with
  | nil =>
    intro name res h
    simp only [buildsLoop, Except.ok.injEq] at h
    exact h.symm
  | cons p rest ih =>
    intro name res h
    obtain ⟨f, k⟩ := p
    simp only [buildsLoop, reduceCtorEq, if_false] at h
    exact ih name res h

theorem buildsLoop_tree_ok (l : List (String × BuildType)) :
    ∀ (name : String) (res : List (String × BuildType × String)),
      buildsLoop (some BuildType.TREE) name l = Except.ok res →
      ∀ e ∈ res, e.2.1 = BuildType.TREE := by
  induction l with
  | nil =>
    intro name res h e he
    simp only [buildsLoop, Except.ok.injEq] at h
    rw [← h] at he
    cases he
  | cons p rest ih =>
    intro name res h e he
    obtain ⟨f, k⟩ := p
    by_cases hk : k = BuildType.TREE
    · subst hk
      cases hrec : buildsLoop (some BuildType.TREE) name rest with
      | error e2 => simp [buildsLoop, hrec] at h
      | ok tl =>
        simp only [buildsLoop, eq_self_iff_true, if_true, hrec, Except.ok.injEq] at h
        rw [← h] at he
        rcases List.mem_cons.mp he with heq | htail
        · subst heq
          rfl
        · exact ih name tl hrec e htail
    · simp only [buildsLoop] at h
      rw [if_neg (by simp [hk])] at h
      exact ih name res h e he

theorem buildsLoop_wheel_ok (l : List (String × BuildType)) :
    ∀ (name : String) (res : List (String × BuildType × String)),
      buildsLoop (some BuildType.WHEEL) name l = Except.ok res →
      ∀ e ∈ res, e.2.1 = BuildType.WHEEL ∧ ∃ t, e.2.2 = canonicalize_name t := by
  induction l with
  | nil =>
    intro name res h e he
    simp only [buildsLoop, Except.ok.injEq] at h
    rw [← h] at he
    cases he
  | cons p rest ih =>
    intro name res h e he
    obtain ⟨f, k⟩ := p
    by_cases hk : k = BuildType.WHEEL
    · subst hk
      cases hp : parse_wheel_filename f with
      | none => simp [buildsLoop, hp] at h
      | some m =>
        cases hrec : buildsLoop (some BuildType.WHEEL) m rest with
        | error e2 => simp [buildsLoop, hp, hrec] at h
        | ok tl =>
          simp only [buildsLoop, eq_self_iff_true, if_true, hp, hrec,
            Except.ok.injEq] at h
          rw [← h] at he
          rcases List.mem_cons.mp he with heq | htail
          · subst heq
            exact ⟨rfl, parse_wheel_filename_canonical f m hp⟩
          · exact ih m tl hrec e htail
    · simp only [buildsLoop] at h
      rw [if_neg (by simp [hk])] at h
      exact ih name res h e he

theorem buildsLoop_sdist_ok (l : List (String × BuildType)) :
    ∀ (name : String) (res : List (String × BuildType × String)),
      buildsLoop (some BuildType.SDIST) name l = Except.ok res →
      ∀ e ∈ res, e.2.1 = BuildType.SDIST ∧ ∃ t, e.2.2 = canonicalize_name t := by
  induction l with
  | nil =>
    intro name res h e he
    simp only [buildsLoop, Except.ok.injEq] at h
    rw [← h] at he
    cases he
  | cons p rest ih =>
    intro name res h e he
    obtain ⟨f, k⟩ := p
    by_cases hk : k = BuildType.SDIST
    · subst hk
      cases hp : parse_sdist_filename f with
      | none => simp [buildsLoop, hp] at h
      | some m =>
        cases hrec : buildsLoop (some BuildType.SDIST) m rest with
        | error e2 => simp [buildsLoop, hp, hrec] at h
        | ok tl =>
          simp only [buildsLoop, eq_self_iff_true, if_true, hp, hrec,
            Except.ok.injEq] at h
          rw [← h] at he
          rcases List.mem_cons.mp he with heq | htail
          · subst heq
            exact ⟨rfl, parse_sdist_filename_canonical f m hp⟩
          · exact ih m tl hrec e htail
    · simp only [buildsLoop] at h
      rw [if_neg (by simp [hk])] at h
      exact ih name res h e he

/-! ## Claim C1 -/

/-- C1, counterexample: when the manifest is absent the asynchronous load
fails with a GLib I/O error and `_on_load_pyproject_toml` returns that
I/O error to the task — not the NotPep517 (NOT_SUPPORTED) error the claim
requires for every failing manifest. -/
theorem C1_counterexample :
    on_load_pyproject_toml LoadOutcome.ioError = (InitOutcome.errIo, none) ∧
    InitOutcome.errIo ≠ InitOutcome.errNotPep517 :=
  ⟨rfl, by decide⟩

/-- C1 (amended): asynchronous resolution fails and leaves
`build_backend` unset for every manifest that is absent, unparsable as
TOML, or parsable but lacking a `build-system` table with a string
`build-backend` field — but the error distinguishes the cases: an absent
manifest surfaces the propagated I/O error, an unparsable one the
propagated TOML decode error, and only the parsable-but-lacking case
yields the NotPep517 error. -/
theorem C1_resolution_failures :
    on_load_pyproject_toml LoadOutcome.ioError = (InitOutcome.errIo, none) ∧
    on_load_pyproject_toml LoadOutcome.decodeError = (InitOutcome.errTomlDecode, none) ∧
    ∀ doc, isPep517 doc = false →
      on_load_pyproject_toml (LoadOutcome.parsed doc) = (InitOutcome.errNotPep517, none) := by
  refine ⟨rfl, rfl, fun doc h => ?_⟩
  simp [on_load_pyproject_toml, h]

/-- Witness for C1_resolution_failures at the empty parsed document. -/
theorem C1_resolution_failures_witness :
    on_load_pyproject_toml (LoadOutcome.parsed []) = (InitOutcome.errNotPep517, none) :=
  C1_resolution_failures.2.2 [] rfl

/-! ## Claim C2 -/

/-- C2, counterexample: the plain file "foo.gz" — whose only pathlib
suffix is ".gz", which is none of ".tar", ".tar.gz", ".zip" — is
classified FILE by the claim, yet `add_build` with a backend supporting
every kind registers it as SDIST. -/
theorem C2_counterexample :
    classifyClaimC2 ⟨"foo.gz", false⟩ = BuildType.FILE ∧
    add_build allBuildTypes [] ⟨"foo.gz", false⟩ = [("foo.gz", BuildType.SDIST)] ∧
    add_build allBuildTypes [] ⟨"foo.gz", false⟩ ≠ [("foo.gz", BuildType.FILE)] :=
  ⟨by decide, by decide, by decide⟩

/-- C2 (amended): `add_build` interleaves classification and the backend
support check as a first-match cascade — directory with TREE supported →
TREE; suffix ".egg" with EGG supported → EGG; ".whl" with WHEEL → WHEEL;
".gz"/".tar"/".zip" with SDIST → SDIST; otherwise FILE when FILE is
supported; when no branch matches, the artifact is silently dropped.  An
accepted artifact is stored under the file's base name, overwriting any
prior entry of that name, and its registered kind is always among the
backend's supported kinds. -/
theorem C2_add_build_first_match (supported : List BuildType) (builds : Registry)
    (f : PyFile) :
    add_build supported builds f =
      (match classifyFirstMatch supported f with
       | some k => dictSet builds f.name k
       | none => builds) ∧
    ∀ k, classifyFirstMatch supported f = some k →
      (add_build supported builds f).lookup f.name = some k ∧
      supported.contains k = true := by
  have hmain : add_build supported builds f =
      (match classifyFirstMatch supported f with
       | some k => dictSet builds f.name k
       | none => builds) := by
    unfold add_build classifyFirstMatch
    split_ifs <;> rfl
  refine ⟨hmain, fun k hk => ⟨?_, ?_⟩⟩
  · rw [hmain, hk]
    exact dictSet_lookup builds f.name k
  · unfold classifyFirstMatch at hk
    split_ifs at hk with h1 h2 h3 h4 h5
    · simp only [Option.some.injEq] at hk
      subst hk
      simp only [Bool.and_eq_true] at h1
      exact h1.2
    · simp only [Option.some.injEq] at hk
      subst hk
      simp only [Bool.and_eq_true] at h2
      exact h2.2
    · simp only [Option.some.injEq] at hk
      subst hk
      simp only [Bool.and_eq_true] at h3
      exact h3.2
    · simp only [Option.some.injEq] at hk
      subst hk
      simp only [Bool.and_eq_true] at h4
      exact h4.2
    · simp only [Option.some.injEq] at hk
      subst hk
      exact h5

/-- Witness for C2_add_build_first_match: a ".whl" file accepted by a
backend supporting every kind lands in the registry as a WHEEL. -/
theorem C2_add_build_first_match_witness :
    add_build allBuildTypes [] ⟨"a.whl", false⟩ =
      (match classifyFirstMatch allBuildTypes ⟨"a.whl", false⟩ with
       | some k => dictSet [] "a.whl" k
       | none => ([] : Registry)) ∧
    (add_build allBuildTypes [] ⟨"a.whl", false⟩).lookup "a.whl" =
      some BuildType.WHEEL ∧
    allBuildTypes.contains BuildType.WHEEL = true :=
  ⟨(C2_add_build_first_match allBuildTypes [] ⟨"a.whl", false⟩).1,
   (C2_add_build_first_match allBuildTypes [] ⟨"a.whl", false⟩).2
     BuildType.WHEEL (by decide)⟩

/-! ## Claim C3 -/

/-- C3, counterexample: with the single registered WHEEL artifact
"bad.whl" — an invalid wheel filename — `get_builds_installable`
propagates the InvalidWheelFilename raise instead of returning the
installable list with the project name "Unknown". -/
theorem C3_counterexample :
    get_builds_installable "/project" [("bad.whl", BuildType.WHEEL)] =
      Except.error PkgError.invalidWheelFilename ∧
    get_builds_installable "/project" [("bad.whl", BuildType.WHEEL)] ≠
      Except.ok [("/project", BuildType.TREE, "sources"),
                 ("bad.whl", BuildType.WHEEL, "Unknown")] := by
  refine ⟨rfl, fun h => ?_⟩
  rw [show get_builds_installable "/project" [("bad.whl", BuildType.WHEEL)] =
      Except.error PkgError.invalidWheelFilename from rfl] at h
  exact Except.noConfusion h

/-- C3 (amended): a registered WHEEL artifact (resp., with no wheel
registered, an SDIST artifact) whose filename does not follow the
standard wheel (sdist) filename grammar makes `get_builds_installable`
raise the parse error and abort the whole operation, rather than
degrading the name to "Unknown"; whenever the operation does return a
list, the synthetic ("sources", TREE) entry comes first, and every entry
of the list bearing the name "Unknown" is of kind TREE — "Unknown" is
used only for entries that are never parsed (TREE installables), while
WHEEL/SDIST entries always carry a name produced by parsing. -/
theorem C3_parse_failure_aborts (workdir : String) (builds : Registry) :
    (∀ file, (file, BuildType.WHEEL) ∈ builds → parse_wheel_filename file = none →
      ∃ e, get_builds_installable workdir builds = Except.error e) ∧
    ((∀ p ∈ builds, p.2 ≠ BuildType.WHEEL) →
      ∀ file, (file, BuildType.SDIST) ∈ builds → parse_sdist_filename file = none →
        ∃ e, get_builds_installable workdir builds = Except.error e) ∧
    (∀ l, get_builds_installable workdir builds = Except.ok l →
      ∃ tl, l = (workdir, BuildType.TREE, "sources") :: tl) ∧
    (∀ l, get_builds_installable workdir builds = Except.ok l →
      ∀ e ∈ l, e.2.2 = "Unknown" → e.2.1 = BuildType.TREE) := by
  refine ⟨?_, ?_, ?_, ?_⟩
  · intro file hmem hbad
    obtain ⟨e, he⟩ := buildsLoop_wheel_error builds file hmem hbad "Unknown"
    refine ⟨e, ?_⟩
    unfold get_builds_installable
    rw [installableOf_wheel builds file hmem, he]
  · intro hnw file hmem hbad
    obtain ⟨e, he⟩ := buildsLoop_sdist_error builds file hmem hbad "Unknown"
    refine ⟨e, ?_⟩
    unfold get_builds_installable
    rw [installableOf_sdist builds file hnw hmem, he]
  · intro l hl
    unfold get_builds_installable at hl
    cases hres : buildsLoop (installableOf builds) "Unknown" builds with
    | error e =>
      rw [hres] at hl
      simp at hl
    | ok tl =>
      rw [hres] at hl
      simp only [Except.ok.injEq] at hl
      exact ⟨tl, hl.symm⟩
  · intro l hl e he hU
    unfold get_builds_installable at hl
    cases hres : buildsLoop (installableOf builds) "Unknown" builds with
    | error e2 =>
      rw [hres] at hl
      simp at hl
    | ok tl =>
      rw [hres] at hl
      simp only [Except.ok.injEq] at hl
      rw [← hl] at he
      rcases List.mem_cons.mp he with heq | htail
      · subst heq
        rfl
      · rcases installableOf_cases builds with hi | hi | hi | hi
        · rw [hi] at hres
          rw [buildsLoop_none_ok builds "Unknown" tl hres] at htail
          cases htail
        · rw [hi] at hres
          obtain ⟨hkind, t, ht⟩ := buildsLoop_wheel_ok builds "Unknown" tl hres e htail
          rw [hU] at ht
          exact absurd ht.symm (canonicalize_ne_unknown t)
        · rw [hi] at hres
          obtain ⟨hkind, t, ht⟩ := buildsLoop_sdist_ok builds "Unknown" tl hres e htail
          rw [hU] at ht
          exact absurd ht.symm (canonicalize_ne_unknown t)
        · rw [hi] at hres
          exact buildsLoop_tree_ok builds "Unknown" tl hres e htail

/-- Witness for C3_parse_failure_aborts: an invalid wheel filename
aborts, an invalid sdist filename aborts, a run over an empty registry
returns the sources entry first, and the "Unknown"-named entry produced
by a TREE-only registry is of kind TREE. -/
theorem C3_parse_failure_aborts_witness :
    (∃ e, get_builds_installable "/w" [("x.whl", BuildType.WHEEL)] = Except.error e) ∧
    (∃ e, get_builds_installable "/w" [("x.zip", BuildType.SDIST)] = Except.error e) ∧
    (∃ tl, [("/w", BuildType.TREE, "sources")] =
      ("/w", BuildType.TREE, "sources") :: tl) ∧
    ("d", BuildType.TREE, "Unknown").2.1 = BuildType.TREE :=
  ⟨(C3_parse_failure_aborts "/w" [("x.whl", BuildType.WHEEL)]).1 "x.whl"
      (by decide) (by decide),
   (C3_parse_failure_aborts "/w" [("x.zip", BuildType.SDIST)]).2.1
      (by decide) "x.zip" (by decide) (by decide),
   (C3_parse_failure_aborts "/w" []).2.2.1 [("/w", BuildType.TREE, "sources")] rfl,
   (C3_parse_failure_aborts "/w" [("d", BuildType.TREE)]).2.2.2
      [("/w", BuildType.TREE, "sources"), ("d", BuildType.TREE, "Unknown")] rfl
      ("d", BuildType.TREE, "Unknown") (by decide) rfl⟩

end Pep517
